import Mathlib

/-!
# Verification of the synchronized multi-track audio player

Shallow embedding of `src/components/AudioPlayer.tsx` (the `AudioSyncPlayer`
React component built on the Web Audio API).  Reactive state variables become
fields of `PlayerState`; each event handler becomes a function from state to
state (or to `Except AudioError PlayerState` when the underlying Web Audio
calls can throw).  The external fetch-and-decode collaborator is passed in as
a function `fetchDecode : Nat → Option AudioBuffer` from source refs to
decoded buffers.

Web Audio `AudioBufferSourceNode`s are single-use: `start()` throws
`InvalidStateError` when the node has already been started, and `stop()`
throws when it has not yet been started.  We model a node with an explicit
`startCount` so those semantics are captured faithfully.
-/

/-- A decoded audio buffer's observable metadata, as produced by
`decodeAudioData` and read in `setupAudio`. -/
structure AudioBuffer where
  duration : ℚ
  numberOfChannels : Nat
  sampleRate : Nat
  deriving Repr, DecidableEq

/-- One `AudioBufferSourceNode`: a single-use playback node.  `startCount`
records how many times `start` has been invoked (Web Audio allows at most
one), `stopped` whether `stop` has been invoked, `offset` the offset argument
of the (last) `start` call, and `loopFlag` the value of `source.loop` bound
at creation time in `setupAudio`. -/
structure SourceNode where
  buffer : AudioBuffer
  loopFlag : Bool
  startCount : Nat
  stopped : Bool
  offset : ℚ
  deriving Repr, DecidableEq

/-- Web Audio API errors observable in this component. -/
inductive AudioError where
  | invalidState
  deriving Repr, DecidableEq

/-- `source.start(when, offset)`: throws `InvalidStateError` when the node
has already been started (single-use semantics); otherwise marks it started
at the given offset. -/
def SourceNode.startNode (n : SourceNode) (off : ℚ) : Except AudioError SourceNode :=
  if n.startCount ≠ 0 then .error .invalidState
  else .ok { n with startCount := n.startCount + 1, offset := off }

/-- `source.stop(when)`: throws `InvalidStateError` when the node has never
been started; otherwise marks it stopped. -/
def SourceNode.stopNode (n : SourceNode) : Except AudioError SourceNode :=
  if n.startCount = 0 then .error .invalidState
  else .ok { n with stopped := true }

/-- The `compressionParams` state object with its five fields
(`threshold`, `knee`, `ratio`, `attack`, `release`). -/
structure CompressionParams where
  threshold : ℚ
  knee : ℚ
  ratio : ℚ
  attack : ℚ
  release : ℚ
  deriving Repr, DecidableEq

/-- The initial `useState` value of `compressionParams`
(threshold -24 dB, knee 30 dB, ratio 12, attack 0.003 s, release 0.25 s). -/
def defaultCompressionParams : CompressionParams :=
  { threshold := -24, knee := 30, ratio := 12, attack := mkRat 3 1000, release := mkRat 1 4 }

/-- The five compressor parameter names addressable through
`handleCompressorChange` (the `name` of the changed input). -/
inductive ParamName where
  | threshold | knee | ratio | attack | release
  deriving Repr, DecidableEq

/-- Store `v` into the named field of a `CompressionParams`, as the spread
update `{ ...prevParams, [name]: parseFloat(value) }` does. -/
def CompressionParams.setField (c : CompressionParams) (p : ParamName) (v : ℚ) :
    CompressionParams :=
  match p with
  | .threshold => { c with threshold := v }
  | .knee => { c with knee := v }
  | .ratio => { c with ratio := v }
  | .attack => { c with attack := v }
  | .release => { c with release := v }

/-- Read the named field of a `CompressionParams`. -/
def CompressionParams.getField (c : CompressionParams) (p : ParamName) : ℚ :=
  match p with
  | .threshold => c.threshold
  | .knee => c.knee
  | .ratio => c.ratio
  | .attack => c.attack
  | .release => c.release

/-- The component's reactive state and refs.  `audioContext` records whether
the `AudioContext` has been constructed; `compressor` is
`compressorRef.current`, holding the parameter values most recently
programmed into the `DynamicsCompressorNode` (or `none` before the graph is
built); `intervalActive` models the live `setInterval` handle in
`intervalRef` and `rafActive` the live `requestAnimationFrame` chain in
`animationFrameRef`. -/
structure PlayerState where
  audioContext : Bool
  sources : List SourceNode
  gainNodes : List ℚ
  isPlaying : Bool
  loop : Bool
  currentTime : ℚ
  duration : ℚ
  metadata : List AudioBuffer
  isLoading : Bool
  mutedTracks : List Bool
  compressionParams : CompressionParams
  compressor : Option CompressionParams
  intervalActive : Bool
  rafActive : Bool
  deriving Repr, DecidableEq

/-- The state of a freshly mounted component: every `useState` initial value
and empty refs. -/
def initialState : PlayerState :=
  { audioContext := false
    sources := []
    gainNodes := []
    isPlaying := false
    loop := false
    currentTime := 0
    duration := 0
    metadata := []
    isLoading := false
    mutedTracks := []
    compressionParams := defaultCompressionParams
    compressor := none
    intervalActive := false
    rafActive := false }

/-- `Promise.all(urls.map(url => loadAudio(context, url)))`: fetch and decode
every source ref; the result preserves the input order and the whole
operation fails as soon as any single fetch-and-decode fails. -/
def loadAll (fetchDecode : Nat → Option AudioBuffer) : List Nat → Option (List AudioBuffer)
  | [] => some []
  | u :: us =>
    match fetchDecode u with
    | none => none
    | some b =>
      match loadAll fetchDecode us with
      | none => none
      | some bs => some (b :: bs)

/-- Binary `Math.max` on rationals (the larger of the two arguments). -/
def rmax (a b : ℚ) : ℚ := if Rat.blt a b then b else a

/-- `Math.max(...xs)` over the buffers' durations, as computed by
`setDuration(Math.max(...audioBuffers.map(buffer => buffer.duration)))`.
For the empty spread `Math.max()` returns `-Infinity`; the component is only
used with a non-empty `audioUrls`, and we return `0` in that vacuous case. -/
def maxDuration : List ℚ → ℚ
  | [] => 0
  | d :: ds => ds.foldl rmax d

/-- The body of `setupAudio` after the buffers have resolved: creates one
gain node per buffer (default gain 1), one fresh un-started source node per
buffer with `source.loop = loop` bound at creation, a compressor programmed
with the current `compressionParams`, the max duration, per-buffer metadata,
and muted flags all initialized to `false`. -/
def setupAudio (s : PlayerState) (buffers : List AudioBuffer) : PlayerState :=
  { s with
    gainNodes := buffers.map (fun _ => (1 : ℚ))
    sources := buffers.map (fun b =>
      { buffer := b, loopFlag := s.loop, startCount := 0, stopped := false, offset := 0 })
    compressor := some s.compressionParams
    duration := maxDuration (buffers.map AudioBuffer.duration)
    metadata := buffers
    mutedTracks := List.replicate buffers.length false }

/-- `initAudio`: sets `isLoading` to `true`, awaits `setupAudio`, and sets
`isLoading` back to `false`.  When any fetch-and-decode rejects, the
rejection is caught by `initAudio().catch(console.error)`: none of the
session fields are ever written and `setIsLoading(false)` is never reached. -/
def initAudio (fetchDecode : Nat → Option AudioBuffer) (urls : List Nat)
    (s : PlayerState) : PlayerState :=
  match loadAll fetchDecode urls with
  | none => { s with isLoading := true }
  | some buffers => { setupAudio { s with isLoading := true } buffers with isLoading := false }

/-- The `useEffect` with dependencies `[audioContext, audioUrls, loop]`: when
an `AudioContext` exists, (re)runs `initAudio`, reloading every track and
rebuilding the whole graph. -/
def runEffect (fetchDecode : Nat → Option AudioBuffer) (urls : List Nat)
    (s : PlayerState) : PlayerState :=
  if s.audioContext then initAudio fetchDecode urls s else s

/-- Sequence `SourceNode.startNode off` over a list of sources, propagating
the first thrown `InvalidStateError` (as the `forEach` in `handlePlay` and
`handleSliderChange` would). -/
def startAllNodes (off : ℚ) : List SourceNode → Except AudioError (List SourceNode)
  | [] => .ok []
  | n :: ns => do
    let n' ← n.startNode off
    let ns' ← startAllNodes off ns
    .ok (n' :: ns')

/-- Sequence `SourceNode.stopNode` over a list of sources, propagating the
first thrown `InvalidStateError`. -/
def stopAllNodes : List SourceNode → Except AudioError (List SourceNode)
  | [] => .ok []
  | n :: ns => do
    let n' ← n.stopNode
    let ns' ← stopAllNodes ns
    .ok (n' :: ns')

/-- `handlePlay`: with no `AudioContext` yet, only constructs one (which will
make the `useEffect` fire and start loading); otherwise, when sources exist,
starts every source at offset 0, sets `isPlaying`, starts the animation-frame
spectral sampling (`drawFrequencyData`) and the 100 ms clock-sampling
interval.  With a context but no sources yet (still loading), does nothing. -/
def handlePlay (s : PlayerState) : Except AudioError PlayerState :=
  if !s.audioContext then
    .ok { s with audioContext := true }
  else if s.sources.length > 0 then do
    let sources' ← startAllNodes 0 s.sources
    .ok { s with sources := sources', isPlaying := true, rafActive := true,
                 intervalActive := true }
  else .ok s

/-- `handleStop`: when sources exist, stops every source, clears `isPlaying`,
cancels the clock-sampling interval and the animation-frame chain, and resets
`currentTime` to 0. -/
def handleStop (s : PlayerState) : Except AudioError PlayerState :=
  if s.sources.length > 0 then do
    let sources' ← stopAllNodes s.sources
    .ok { s with sources := sources', isPlaying := false, intervalActive := false,
                 rafActive := false, currentTime := 0 }
  else .ok s

/-- `handleSliderChange` (seek): sets `currentTime` to the requested time,
then for each source calls `source.stop()` followed by
`source.start(0, time)` on that same node. -/
def handleSliderChange (time : ℚ) (s : PlayerState) : Except AudioError PlayerState := do
  let s := { s with currentTime := time }
  let sources' ← stopAllNodes s.sources
  let sources'' ← startAllNodes time sources'
  .ok { s with sources := sources'' }

/-- `handleLoopToggle`: flips the `loop` flag.  (Because `loop` is in the
`useEffect` dependency list, React then re-runs the effect — modelled
separately by `runEffect`.) -/
def handleLoopToggle (s : PlayerState) : PlayerState :=
  { s with loop := !s.loop }

/-- `toggleMute(index)`: flips `mutedTracks[index]` and writes the matching
gain value (`0` muted, `1` unmuted) into `gainNodes[index].gain.value`.
Playback nodes are untouched. -/
def toggleMute (i : Nat) (s : PlayerState) : PlayerState :=
  let newMuted := s.mutedTracks.set i (!(s.mutedTracks.getD i false))
  { s with
    mutedTracks := newMuted
    gainNodes := s.gainNodes.set i (if newMuted.getD i false then 0 else 1) }

/-- `handleCompressorChange`: stores `parseFloat(value)` into the named field
of `compressionParams` with no validation, and, when a compressor node
exists, re-programs it via `updateCompressorParams` — which reads the
`compressionParams` captured by the current render closure, i.e. the values
from before this update. -/
def handleCompressorChange (p : ParamName) (v : ℚ) (s : PlayerState) : PlayerState :=
  { s with
    compressionParams := s.compressionParams.setField p v
    compressor := if s.compressor.isSome then some s.compressionParams else s.compressor }


/-!
## Concrete fixtures

The demo page `src/app/page.tsx` mounts the player with three tracks
(`808s.wav`, `percs.wav`, `chords.wav`); we give them durations 3.0 s,
2.5 s and 3.2 s (the end-to-end scenario of the spec) and drive the
component through its handlers: first `handlePlay` creates the context,
the effect then loads and builds the graph, and a second `handlePlay`
starts playback.
-/

/-- Fixture buffer of duration 3.0 seconds. -/
def buf1 : AudioBuffer := { duration := 3, numberOfChannels := 2, sampleRate := 44100 }

/-- Fixture buffer of duration 2.5 seconds. -/
def buf2 : AudioBuffer := { duration := mkRat 5 2, numberOfChannels := 1, sampleRate := 44100 }

/-- Fixture buffer of duration 3.2 seconds. -/
def buf3 : AudioBuffer := { duration := mkRat 16 5, numberOfChannels := 2, sampleRate := 48000 }

/-- A fetch-and-decode collaborator that succeeds on the three demo refs. -/
def demoFetch : Nat → Option AudioBuffer
  | 0 => some buf1
  | 1 => some buf2
  | 2 => some buf3
  | _ => none

/-- The three demo source refs, in request order. -/
def demoUrls : List Nat := [0, 1, 2]

/-- A fetch-and-decode collaborator whose fetch of ref 1 fails. -/
def badFetch : Nat → Option AudioBuffer
  | 1 => none
  | u => demoFetch u

/-- The state after the very first `handlePlay` on a fresh mount: only the
`AudioContext` has been created. -/
def afterFirstPlay : PlayerState := ((handlePlay initialState).toOption).getD initialState

/-- The state after the load effect has completed: graph built, ready to
play. -/
def readyState : PlayerState := runEffect demoFetch demoUrls afterFirstPlay

/-- The state after a second `handlePlay`: all three playback nodes
started. -/
def playingState : PlayerState := ((handlePlay readyState).toOption).getD readyState

/-!
## Helper lemmas
-/

theorem blt_iff_lt (a b : ℚ) : Rat.blt a b = true ↔ a < b := Iff.rfl

theorem le_rmax_left (a b : ℚ) : a ≤ rmax a b := by
  unfold rmax
  cases hb : Rat.blt a b with
  | false => simp
  | true =>
    simp only [if_true]
    exact le_of_lt ((blt_iff_lt a b).mp hb)

theorem le_rmax_right (a b : ℚ) : b ≤ rmax a b := by
  unfold rmax
  cases hb : Rat.blt a b with
  | false =>
    simp only [Bool.false_eq_true, if_false]
    exact le_of_not_lt (fun hlt => by rw [(blt_iff_lt a b).mpr hlt] at hb; cases hb)
  | true => simp

theorem rmax_eq_or (a b : ℚ) : rmax a b = a ∨ rmax a b = b := by
  unfold rmax
  cases hb : Rat.blt a b with
  | false => left; simp
  | true => right; simp

/-- The fold underlying `maxDuration` is an upper bound of its accumulator. -/
theorem foldl_rmax_le_acc (ds : List ℚ) (a : ℚ) : a ≤ ds.foldl rmax a := by
  induction ds generalizing a with
  | nil => exact le_refl a
  | cons d ds ih => exact le_trans (le_rmax_left a d) (ih (rmax a d))

/-- The fold underlying `maxDuration` is an upper bound of every element. -/
theorem foldl_rmax_le_mem (ds : List ℚ) (a x : ℚ) (hx : x ∈ ds) :
    x ≤ ds.foldl rmax a := by
  induction ds generalizing a with
  | nil => cases hx
  | cons d ds ih =>
    rcases List.mem_cons.mp hx with h | h
    · subst h
      exact le_trans (le_rmax_right a x) (foldl_rmax_le_acc ds (rmax a x))
    · exact ih (rmax a d) h

/-- The fold underlying `maxDuration` is attained at the accumulator or at
some element. -/
theorem foldl_rmax_mem (ds : List ℚ) (a : ℚ) :
    ds.foldl rmax a = a ∨ ds.foldl rmax a ∈ ds := by
  induction ds generalizing a with
  | nil => left; rfl
  | cons d ds ih =>
    rcases ih (rmax a d) with h | h
    · rcases rmax_eq_or a d with h2 | h2
      · left; rw [List.foldl_cons, h, h2]
      · right; rw [List.foldl_cons, h, h2]; exact List.mem_cons_self d ds
    · right; exact List.mem_cons_of_mem d h

theorem getD_set_self {α : Type} (l : List α) (i : Nat) (a d : α) (h : i < l.length) :
    (l.set i a).getD i d = a := by
  induction l generalizing i with
  | nil => cases h
  | cons x xs ih =>
    cases i with
    | zero => rfl
    | succ j => exact ih j (Nat.lt_of_succ_lt_succ h)

theorem set_getD_self {α : Type} (l : List α) (i : Nat) (d : α) (h : i < l.length) :
    l.set i (l.getD i d) = l := by
  induction l generalizing i with
  | nil => cases h
  | cons x xs ih =>
    cases i with
    | zero => rfl
    | succ j =>
      show x :: xs.set j (xs.getD j d) = x :: xs
      rw [ih j (Nat.lt_of_succ_lt_succ h)]

/-- Stopping a list of nodes that have all been started succeeds, marking
every node stopped. -/
theorem stopAllNodes_ok (ns : List SourceNode) (h : ∀ n ∈ ns, n.startCount ≠ 0) :
    stopAllNodes ns = .ok (ns.map fun n => { n with stopped := true }) := by
  induction ns with
  | nil => rfl
  | cons n ns ih =>
    have hn : n.startCount ≠ 0 := h n (List.mem_cons_self n ns)
    show (do
      let n' ← n.stopNode
      let ns' ← stopAllNodes ns
      Except.ok (n' :: ns')) = _
    rw [SourceNode.stopNode, if_neg hn, ih (fun m hm => h m (List.mem_cons_of_mem n hm))]
    rfl

/-- Starting a list of fresh (never-started) nodes succeeds, marking every
node started once at the given offset. -/
theorem startAllNodes_ok (off : ℚ) (ns : List SourceNode) (h : ∀ n ∈ ns, n.startCount = 0) :
    startAllNodes off ns =
      .ok (ns.map fun n => { n with startCount := n.startCount + 1, offset := off }) := by
  induction ns with
  | nil => rfl
  | cons n ns ih =>
    have hn : ¬ n.startCount ≠ 0 := by
      rw [h n (List.mem_cons_self n ns)]; exact fun hc => hc rfl
    show (do
      let n' ← n.startNode off
      let ns' ← startAllNodes off ns
      Except.ok (n' :: ns')) = _
    rw [SourceNode.startNode, if_neg hn, ih (fun m hm => h m (List.mem_cons_of_mem n hm))]
    rfl

/-- Whenever `stopAllNodes` succeeds it returns one node per input node. -/
theorem stopAllNodes_length (ns ns' : List SourceNode)
    (h : stopAllNodes ns = .ok ns') : ns'.length = ns.length := by
  induction ns generalizing ns' with
  | nil =>
    cases h
    rfl
  | cons n ns ih =>
    revert h
    show (do
      let n' ← n.stopNode
      let rest ← stopAllNodes ns
      Except.ok (n' :: rest)) = .ok ns' → _
    cases hstop : n.stopNode with
    | error e => intro h; cases h
    | ok m =>
      cases hrest : stopAllNodes ns with
      | error e => intro h; cases h
      | ok ms =>
        intro h
        cases h
        simp only [List.length_cons, ih ms hrest]

/-- Whenever `startAllNodes` succeeds it returns one node per input node. -/
theorem startAllNodes_length (off : ℚ) (ns ns' : List SourceNode)
    (h : startAllNodes off ns = .ok ns') : ns'.length = ns.length := by
  induction ns generalizing ns' with
  | nil =>
    cases h
    rfl
  | cons n ns ih =>
    revert h
    show (do
      let n' ← n.startNode off
      let rest ← startAllNodes off ns
      Except.ok (n' :: rest)) = .ok ns' → _
    cases hstart : n.startNode off with
    | error e => intro h; cases h
    | ok m =>
      cases hrest : startAllNodes off ns with
      | error e => intro h; cases h
      | ok ms =>
        intro h
        cases h
        simp only [List.length_cons, ih ms hrest]

/-!
## Claim theorems
-/

/-- C1: the spec says a seek while Playing stops all playback nodes and then
recreates and restarts one fresh node per track at the requested offset.
The code instead calls `source.start(0, time)` on the very same
already-started nodes, so on a playing session (here: three loaded tracks,
all nodes started, seek target 1 s within the 3.2 s duration) the seek
throws `InvalidStateError` and no node is ever recreated. -/
theorem seek_while_playing_throws_invalid_state :
    handleSliderChange 1 playingState = Except.error AudioError.invalidState := rfl

/-- C2: the spec says a `play()` after `stop()` recreates one fresh playback
node per track and restarts from offset 0.  The code instead calls
`source.start(0)` on the same previously-stopped nodes: `handleStop`
succeeds, but the subsequent `handlePlay` throws `InvalidStateError`
because the single-use nodes have already been started; no node is ever
recreated. -/
theorem play_after_stop_throws_invalid_state :
    (handleStop playingState).toOption.isSome = true ∧
    (handleStop playingState >>= handlePlay) = Except.error AudioError.invalidState :=
  ⟨rfl, rfl⟩

/-- C3 counterexample: `handleCompressorChange` applied with `threshold`
set to 50 — outside the declared range [-100, 0] — silently stores 50 in
`CompressionParams`, neither rejecting nor clamping it. -/
theorem threshold_50_silently_stored :
    (handleCompressorChange ParamName.threshold 50 readyState).compressionParams.threshold
        = 50 ∧
    ¬ ((50 : ℚ) ≤ 0) :=
  ⟨rfl, by norm_num⟩

/-- C3 amended: `handleCompressorChange` performs no range validation at
all — for every parameter name and every value, the parsed value is stored
into `CompressionParams` unchanged (out-of-range values included); range
limiting exists only in the min/max attributes of the UI sliders. -/
theorem compressor_change_stores_value_unvalidated (p : ParamName) (v : ℚ)
    (s : PlayerState) :
    (handleCompressorChange p v s).compressionParams.getField p = v := by
  cases p <;> rfl

/-- C5: on a Playing session (non-empty sources, every node started),
`handleStop` succeeds and the resulting state has every playback node
stopped (hard stop), the clock-sampling interval and the animation-frame
spectral sampling both cancelled, `isPlaying` cleared, and the playback
clock reset to 0. -/
theorem stop_stops_everything (s : PlayerState) (hne : s.sources ≠ [])
    (hstarted : ∀ n ∈ s.sources, n.startCount ≠ 0) :
    handleStop s = Except.ok
      { s with sources := s.sources.map (fun n => { n with stopped := true }),
               isPlaying := false, intervalActive := false, rafActive := false,
               currentTime := 0 } := by
  have hlen : s.sources.length > 0 := by
    cases h : s.sources with
    | nil => exact absurd h hne
    | cons a l => simp [h]
  unfold handleStop
  rw [if_pos hlen, stopAllNodes_ok s.sources hstarted]
  rfl

/-- C5 witness: stopping the concrete playing session. -/
theorem stop_stops_everything_witness :
    handleStop playingState = Except.ok
      { playingState with
        sources := playingState.sources.map (fun n => { n with stopped := true }),
        isPlaying := false, intervalActive := false, rafActive := false,
        currentTime := 0 } :=
  stop_stops_everything playingState (by decide) (by decide)

/-- C7: on any state whose gain value at index `i` matches its muted flag
(the reachable-state invariant: gain 1 when unmuted, 0 when muted),
`toggleMute i` writes gain 0 when muting and gain 1 when unmuting, leaves
the playback nodes and the playing flag untouched, and a second toggle
restores the whole state — in particular the gain value — bit for bit. -/
theorem mute_unmute_restores_gain (s : PlayerState) (i : Nat)
    (hg : i < s.gainNodes.length) (hm : i < s.mutedTracks.length)
    (hinv : s.gainNodes.getD i 0 = (if s.mutedTracks.getD i false then 0 else 1)) :
    (toggleMute i s).gainNodes.getD i 0
        = (if s.mutedTracks.getD i false then 1 else 0) ∧
    (toggleMute i s).sources = s.sources ∧
    (toggleMute i s).isPlaying = s.isPlaying ∧
    toggleMute i (toggleMute i s) = s := by
  have hm1 : (s.mutedTracks.set i (!(s.mutedTracks.getD i false))).getD i false
      = !(s.mutedTracks.getD i false) :=
    getD_set_self s.mutedTracks i _ false hm
  refine ⟨?_, rfl, rfl, ?_⟩
  · show (s.gainNodes.set i
        (if (s.mutedTracks.set i (!(s.mutedTracks.getD i false))).getD i false
         then 0 else 1)).getD i 0 = _
    rw [getD_set_self s.gainNodes i _ 0 hg, hm1]
    cases s.mutedTracks.getD i false <;> rfl
  · show
      { s with
        mutedTracks := (s.mutedTracks.set i (!(s.mutedTracks.getD i false))).set i
          (!((s.mutedTracks.set i (!(s.mutedTracks.getD i false))).getD i false))
        gainNodes := (s.gainNodes.set i
            (if (s.mutedTracks.set i (!(s.mutedTracks.getD i false))).getD i false
             then 0 else 1)).set i
          (if ((s.mutedTracks.set i (!(s.mutedTracks.getD i false))).set i
                (!((s.mutedTracks.set i (!(s.mutedTracks.getD i false))).getD i false))).getD
              i false
           then 0 else 1) } = s
    have h2 : (s.mutedTracks.set i (!(s.mutedTracks.getD i false))).set i
        (s.mutedTracks.getD i false) = s.mutedTracks := by
      rw [List.set_set]
      exact set_getD_self s.mutedTracks i false hm
    have h3 : (if s.mutedTracks.getD i false then (0 : ℚ) else 1) = s.gainNodes.getD i 0 :=
      hinv.symm
    rw [hm1, Bool.not_not, h2, h3, List.set_set, set_getD_self s.gainNodes i 0 hg]

/-- C7 witness: muting then unmuting track 0 of the concrete playing
session restores the state exactly. -/
theorem mute_unmute_restores_gain_witness :
    toggleMute 0 (toggleMute 0 playingState) = playingState :=
  (mute_unmute_restores_gain playingState 0 (by decide) (by decide) (by decide)).2.2.2

/-- C8: the session duration computed by `setupAudio` is the maximum of the
individual track durations — it is one of them and bounds all of them — and
on the concrete three-track session with durations 3.0 s, 2.5 s and 3.2 s
the loaded state reports a duration of 3.2 s. -/
theorem duration_is_max_of_track_durations :
    (∀ (s : PlayerState) (bufs : List AudioBuffer), bufs ≠ [] →
      (setupAudio s bufs).duration ∈ bufs.map AudioBuffer.duration ∧
      ∀ b ∈ bufs, b.duration ≤ (setupAudio s bufs).duration) ∧
    readyState.duration = 3.2 := by
  constructor
  · intro s bufs hne
    cases bufs with
    | nil => exact absurd rfl hne
    | cons b bs =>
      have hdur : (setupAudio s (b :: bs)).duration
          = (bs.map AudioBuffer.duration).foldl rmax b.duration := rfl
      constructor
      · rw [hdur]
        rcases foldl_rmax_mem (bs.map AudioBuffer.duration) b.duration with h | h
        · rw [h]
          exact List.mem_cons_self _ _
        · exact List.mem_cons_of_mem _ h
      · intro c hc
        rw [hdur]
        rcases List.mem_cons.mp hc with h | h
        · subst h
          exact foldl_rmax_le_acc _ _
        · exact foldl_rmax_le_mem _ _ _ (List.mem_map_of_mem AudioBuffer.duration h)
  · have h : readyState.duration = mkRat 16 5 := by decide
    rw [h]
    norm_num [Rat.mkRat_eq_div]

/-- C8 witness: the maximum-duration property applied to the concrete
three-track buffer list. -/
theorem duration_is_max_witness :
    (setupAudio initialState [buf1, buf2, buf3]).duration
      ∈ [buf1, buf2, buf3].map AudioBuffer.duration :=
  (duration_is_max_of_track_durations.1 initialState [buf1, buf2, buf3] (by decide)).1

/-- Order and length of a successful `loadAll`: each resulting buffer is the
decode of the source ref at the same position. -/
theorem loadAll_some_spec (f : Nat → Option AudioBuffer) (urls : List Nat)
    (bufs : List AudioBuffer) (h : loadAll f urls = some bufs) :
    bufs.length = urls.length ∧ ∀ i : Nat, bufs[i]? = (urls[i]?).bind f := by
  induction urls generalizing bufs with
  | nil =>
    cases h
    exact ⟨rfl, fun i => by cases i <;> rfl⟩
  | cons u us ih =>
    revert h
    show (match f u with
          | none => none
          | some b =>
            match loadAll f us with
            | none => none
            | some bs => some (b :: bs)) = some bufs → _
    cases hf : f u with
    | none => intro h; cases h
    | some b =>
      cases hl : loadAll f us with
      | none => intro h; cases h
      | some bs =>
        intro h
        cases h
        obtain ⟨hlen, hidx⟩ := ih bs hl
        refine ⟨by simp [hlen], fun i => ?_⟩
        cases i with
        | zero => simp [hf]
        | succ j => simpa using hidx j

/-- When the fetch-and-decode of any single ref fails, the whole `loadAll`
fails. -/
theorem loadAll_none_of_fail (f : Nat → Option AudioBuffer) (urls : List Nat)
    (u : Nat) (hu : u ∈ urls) (hf : f u = none) :
    loadAll f urls = none := by
  induction urls with
  | nil => cases hu
  | cons v vs ih =>
    show (match f v with
          | none => none
          | some b =>
            match loadAll f vs with
            | none => none
            | some bs => some (b :: bs)) = none
    rcases List.mem_cons.mp hu with h | h
    · subst h
      rw [hf]
    · cases hfv : f v with
      | none => rfl
      | some b => rw [ih h]

/-- C4: `loadAll` returns the decoded buffers in exactly the order of the
input refs (position by position), and when any individual fetch-and-decode
fails the whole load fails and `initAudio` leaves every session field
untouched — the component keeps `isLoading` true and never exposes a
half-loaded session as ready. -/
theorem loadAll_order_and_no_partial_session (f : Nat → Option AudioBuffer)
    (urls : List Nat) :
    (∀ bufs, loadAll f urls = some bufs →
      bufs.length = urls.length ∧ ∀ i : Nat, bufs[i]? = (urls[i]?).bind f) ∧
    ((∃ u ∈ urls, f u = none) →
      loadAll f urls = none ∧
      ∀ s : PlayerState, initAudio f urls s = { s with isLoading := true }) := by
  constructor
  · exact fun bufs h => loadAll_some_spec f urls bufs h
  · rintro ⟨u, hu, hf⟩
    have hn := loadAll_none_of_fail f urls u hu hf
    refine ⟨hn, fun s => ?_⟩
    unfold initAudio
    rw [hn]

/-- C4 witness: the three demo refs decode in order and with equal length;
with the failing fetcher, `initAudio` only flags loading and exposes
nothing. -/
theorem loadAll_order_witness :
    ([buf1, buf2, buf3] : List AudioBuffer).length = demoUrls.length ∧
    initAudio badFetch demoUrls initialState = { initialState with isLoading := true } :=
  ⟨((loadAll_order_and_no_partial_session demoFetch demoUrls).1 [buf1, buf2, buf3] rfl).1,
   ((loadAll_order_and_no_partial_session badFetch demoUrls).2
      ⟨1, by decide, rfl⟩).2 initialState⟩

/-- The concrete playing session with track 0 muted. -/
def mutedPlaying : PlayerState := toggleMute 0 playingState

/-- The state immediately after toggling loop on that session: since `loop`
is a dependency of the load effect, React re-runs the whole
load-and-build. -/
def afterLoopToggle : PlayerState :=
  runEffect demoFetch demoUrls (handleLoopToggle mutedPlaying)

/-- C6 counterexample: on a Playing session (nodes started, track 0 muted,
loop off), toggling loop does not wait for the next play/seek cycle — the
effect re-run immediately replaces the session playback nodes with fresh
un-started nodes already carrying the new loop value and resets the muted
flags to all-false, all while `isPlaying` is still true. -/
theorem loop_toggle_has_immediate_effect :
    mutedPlaying.isPlaying = true ∧
    mutedPlaying.loop = false ∧
    mutedPlaying.mutedTracks = [true, false, false] ∧
    mutedPlaying.sources.map SourceNode.startCount = [1, 1, 1] ∧
    afterLoopToggle.isPlaying = true ∧
    afterLoopToggle.sources.map SourceNode.loopFlag = [true, true, true] ∧
    afterLoopToggle.sources.map SourceNode.startCount = [0, 0, 0] ∧
    afterLoopToggle.mutedTracks = [false, false, false] := by decide

/-- C6 amended: while a context exists (in particular while Playing),
toggling loop immediately triggers a full reload-and-rebuild of the graph:
the session drops its current playback nodes (without stopping them) and
holds fresh un-started nodes that already carry the new loop value, gain
nodes are recreated at 1, and muted flags are reset to all-false; the
already-started nodes themselves keep whatever loop value they were created
with, and `isPlaying` is not changed.  The new loop value is thus bound at
this immediate rebuild, not at the next play/seek cycle. -/
theorem loop_toggle_triggers_rebuild (f : Nat → Option AudioBuffer) (urls : List Nat)
    (s : PlayerState) (bufs : List AudioBuffer)
    (hctx : s.audioContext = true) (hload : loadAll f urls = some bufs) :
    (runEffect f urls (handleLoopToggle s)).loop = !s.loop ∧
    (runEffect f urls (handleLoopToggle s)).sources
      = bufs.map (fun b => { buffer := b, loopFlag := !s.loop, startCount := 0,
                             stopped := false, offset := 0 }) ∧
    (runEffect f urls (handleLoopToggle s)).mutedTracks
      = List.replicate bufs.length false ∧
    (runEffect f urls (handleLoopToggle s)).gainNodes = bufs.map (fun _ => (1 : ℚ)) ∧
    (runEffect f urls (handleLoopToggle s)).isPlaying = s.isPlaying := by
  have h1 : runEffect f urls (handleLoopToggle s)
      = initAudio f urls (handleLoopToggle s) := by
    unfold runEffect
    rw [if_pos]
    show s.audioContext = true
    exact hctx
  rw [h1]
  unfold initAudio
  rw [hload]
  exact ⟨rfl, rfl, rfl, rfl, rfl⟩

/-- C6 witness: the rebuild property applied to the concrete playing
session. -/
theorem loop_toggle_triggers_rebuild_witness :
    (runEffect demoFetch demoUrls (handleLoopToggle playingState)).mutedTracks
      = List.replicate ([buf1, buf2, buf3] : List AudioBuffer).length false :=
  (loop_toggle_triggers_rebuild demoFetch demoUrls playingState [buf1, buf2, buf3]
      (by decide) rfl).2.2.1

/-- The public command surface of the player: the six operations a user can
issue through the UI. -/
inductive Command where
  | play
  | stop
  | seek (timeSeconds : ℚ)
  | loopToggle
  | mute (trackIndex : Nat)
  | compressorChange (p : ParamName) (v : ℚ)

/-- Run one command against the component, including the `useEffect` re-run
React performs when a command changes a dependency of the load effect
(`audioContext` on the context-creating first play, `loop` on a loop
toggle). -/
def runCommand (f : Nat → Option AudioBuffer) (urls : List Nat) :
    Command → PlayerState → Except AudioError PlayerState
  | .play, s =>
    match handlePlay s with
    | .error e => .error e
    | .ok s1 => .ok (if s.audioContext then s1 else runEffect f urls s1)
  | .stop, s => handleStop s
  | .seek t, s => handleSliderChange t s
  | .loopToggle, s => .ok (runEffect f urls (handleLoopToggle s))
  | .mute i, s => .ok (toggleMute i s)
  | .compressorChange p v, s => .ok (handleCompressorChange p v s)

/-- The track-count invariant: per-track gain controls, decoded tracks
(metadata entries), muted flags and playback nodes all agree in number. -/
def TrackInv (s : PlayerState) : Prop :=
  s.gainNodes.length = s.metadata.length ∧
  s.mutedTracks.length = s.metadata.length ∧
  s.sources.length = s.metadata.length

/-- `initAudio` preserves the track-count invariant: a successful load
re-establishes it with the new track count, a failed load changes no session
field. -/
theorem initAudio_trackInv (f : Nat → Option AudioBuffer) (urls : List Nat)
    (s : PlayerState) (h : TrackInv s) : TrackInv (initAudio f urls s) := by
  unfold initAudio
  cases hl : loadAll f urls with
  | none => exact h
  | some bufs =>
    refine ⟨?_, ?_, ?_⟩ <;> simp [setupAudio]

/-- The load effect preserves the track-count invariant. -/
theorem runEffect_trackInv (f : Nat → Option AudioBuffer) (urls : List Nat)
    (s : PlayerState) (h : TrackInv s) : TrackInv (runEffect f urls s) := by
  unfold runEffect
  cases hc : s.audioContext with
  | false => simpa [hc] using h
  | true => simpa [hc] using initAudio_trackInv f urls s h

/-- A successful `handlePlay` preserves the track-count invariant. -/
theorem handlePlay_trackInv (s s1 : PlayerState) (h : TrackInv s)
    (hp : handlePlay s = .ok s1) : TrackInv s1 := by
  unfold handlePlay at hp
  split at hp
  · cases hp
    exact h
  · split at hp
    · cases hsa : startAllNodes 0 s.sources with
      | error e =>
        rw [hsa] at hp
        cases hp
      | ok ns =>
        rw [hsa] at hp
        cases hp
        refine ⟨h.1, h.2.1, ?_⟩
        show ns.length = s.metadata.length
        rw [startAllNodes_length 0 s.sources ns hsa]
        exact h.2.2
    · cases hp
      exact h

/-- A successful `handleStop` preserves the track-count invariant. -/
theorem handleStop_trackInv (s s1 : PlayerState) (h : TrackInv s)
    (hp : handleStop s = .ok s1) : TrackInv s1 := by
  unfold handleStop at hp
  split at hp
  · cases hsa : stopAllNodes s.sources with
    | error e =>
      rw [hsa] at hp
      cases hp
    | ok ns =>
      rw [hsa] at hp
      cases hp
      refine ⟨h.1, h.2.1, ?_⟩
      show ns.length = s.metadata.length
      rw [stopAllNodes_length s.sources ns hsa]
      exact h.2.2
  · cases hp
    exact h

/-- A successful seek preserves the track-count invariant. -/
theorem handleSliderChange_trackInv (t : ℚ) (s s1 : PlayerState) (h : TrackInv s)
    (hp : handleSliderChange t s = .ok s1) : TrackInv s1 := by
  unfold handleSliderChange at hp
  dsimp only at hp
  cases hstop : stopAllNodes s.sources with
  | error e =>
    rw [hstop] at hp
    cases hp
  | ok ns =>
    rw [hstop] at hp
    replace hp : (do
        let sources'' ← startAllNodes t ns
        Except.ok { s with currentTime := t, sources := sources'' }) = Except.ok s1 := hp
    cases hstart : startAllNodes t ns with
    | error e =>
      rw [hstart] at hp
      cases hp
    | ok ns2 =>
      rw [hstart] at hp
      cases hp
      refine ⟨h.1, h.2.1, ?_⟩
      show ns2.length = s.metadata.length
      rw [startAllNodes_length t ns ns2 hstart, stopAllNodes_length s.sources ns hstop]
      exact h.2.2

/-- C9: the track-count invariant — per-track gain controls, tracks and
muted flags (and playback nodes) agree in number — holds after any
successful load and is preserved by every public command: play, stop, seek,
loop toggle, mute toggle and compressor change. -/
theorem track_counts_invariant (f : Nat → Option AudioBuffer) (urls : List Nat) :
    (∀ s : PlayerState, TrackInv s → TrackInv (initAudio f urls s)) ∧
    (∀ (c : Command) (s s1 : PlayerState), TrackInv s →
      runCommand f urls c s = .ok s1 → TrackInv s1) := by
  refine ⟨fun s h => initAudio_trackInv f urls s h, ?_⟩
  intro c s s1 hinv h
  cases c with
  | play =>
    revert h
    show (match handlePlay s with
          | .error e => Except.error e
          | .ok s2 => .ok (if s.audioContext then s2 else runEffect f urls s2))
        = .ok s1 → TrackInv s1
    cases hp : handlePlay s with
    | error e =>
      intro h
      cases h
    | ok s2 =>
      intro h
      cases h
      have h2 := handlePlay_trackInv s s2 hinv hp
      cases hc : s.audioContext with
      | false => exact runEffect_trackInv f urls s2 h2
      | true => exact h2
  | stop => exact handleStop_trackInv s s1 hinv h
  | seek t => exact handleSliderChange_trackInv t s s1 hinv h
  | loopToggle =>
    cases h
    exact runEffect_trackInv f urls (handleLoopToggle s) hinv
  | mute i =>
    cases h
    refine ⟨?_, ?_, hinv.2.2⟩
    · show (s.gainNodes.set i _).length = s.metadata.length
      rw [List.length_set]
      exact hinv.1
    · show (s.mutedTracks.set i _).length = s.metadata.length
      rw [List.length_set]
      exact hinv.2.1
  | compressorChange p v =>
    cases h
    exact hinv

/-- C9 witness: the invariant on the concretely loaded session, and its
preservation through a concrete mute command. -/
theorem track_counts_invariant_witness :
    TrackInv (initAudio demoFetch demoUrls initialState) ∧
    TrackInv (toggleMute 0 readyState) := by
  refine ⟨(track_counts_invariant demoFetch demoUrls).1 initialState ⟨rfl, rfl, rfl⟩, ?_⟩
  exact (track_counts_invariant demoFetch demoUrls).2 (Command.mute 0) readyState
    (toggleMute 0 readyState) ⟨by decide, by decide, by decide⟩ rfl

/-- The state the load effect produces for a context-bearing fresh mount
once all buffers have decoded. -/
def loadedOf (bufs : List AudioBuffer) : PlayerState :=
  { setupAudio { initialState with audioContext := true, isLoading := true } bufs with
    isLoading := false }

/-- `handlePlay` on a state with a context, fresh nodes, and at least one
source: starts every node at offset 0, sets `isPlaying`, and starts the
clock-sampling interval and the spectral-sampling frame loop. -/
theorem handlePlay_starts (s : PlayerState) (hctx : s.audioContext = true)
    (hne : s.sources ≠ []) (hfresh : ∀ n ∈ s.sources, n.startCount = 0) :
    handlePlay s = .ok
      { s with
        sources := s.sources.map (fun n => { n with startCount := n.startCount + 1, offset := 0 }),
        isPlaying := true, rafActive := true, intervalActive := true } := by
  have hlen : s.sources.length > 0 := by
    cases h : s.sources with
    | nil => exact absurd h hne
    | cons a l => simp [h]
  unfold handlePlay
  rw [hctx, if_neg (show ¬ ((!true : Bool) = true) by decide), if_pos hlen,
    startAllNodes_ok 0 s.sources hfresh]
  rfl

/-- C10: on a fresh mount (no `AudioContext`), the first `handlePlay` only
creates the context — `isPlaying` stays false, no node is started, no
sampling process is scheduled; the load effect then builds a ready state
that is still not playing and whose nodes are all un-started; only a second
`handlePlay` actually starts every node and both sampling processes. -/
theorem first_play_only_loads (f : Nat → Option AudioBuffer) (urls : List Nat)
    (bufs : List AudioBuffer) (hload : loadAll f urls = some bufs) (hne : bufs ≠ []) :
    handlePlay initialState = .ok { initialState with audioContext := true } ∧
    runEffect f urls { initialState with audioContext := true } = loadedOf bufs ∧
    (loadedOf bufs).isPlaying = false ∧
    (loadedOf bufs).intervalActive = false ∧
    (loadedOf bufs).rafActive = false ∧
    (∀ n ∈ (loadedOf bufs).sources, n.startCount = 0) ∧
    ∃ s2, handlePlay (loadedOf bufs) = .ok s2 ∧
      s2.isPlaying = true ∧ s2.intervalActive = true ∧ s2.rafActive = true ∧
      s2.sources.length = bufs.length ∧ ∀ n ∈ s2.sources, n.startCount = 1 := by
  have hr : runEffect f urls { initialState with audioContext := true } = loadedOf bufs := by
    show initAudio f urls { initialState with audioContext := true } = _
    unfold initAudio loadedOf
    rw [hload]
  have hfresh : ∀ n ∈ (loadedOf bufs).sources, n.startCount = 0 := by
    intro n hn
    simp only [loadedOf, setupAudio] at hn
    rw [List.mem_map] at hn
    obtain ⟨b, hb, rfl⟩ := hn
    rfl
  have hsne : (loadedOf bufs).sources ≠ [] := by
    simp only [loadedOf, setupAudio]
    intro hcontra
    rw [List.map_eq_nil_iff] at hcontra
    exact hne hcontra
  refine ⟨rfl, hr, rfl, rfl, rfl, hfresh, ?_⟩
  refine ⟨_, handlePlay_starts _ rfl hsne hfresh, rfl, rfl, rfl, ?_, ?_⟩
  · show ((loadedOf bufs).sources.map _).length = bufs.length
    rw [List.length_map]
    show (bufs.map _).length = bufs.length
    rw [List.length_map]
  · intro n hn
    rw [List.mem_map] at hn
    obtain ⟨m, hm, rfl⟩ := hn
    show m.startCount + 1 = 1
    rw [hfresh m hm]

/-- C10 witness: the two-phase play behavior on the concrete three-track
session. -/
theorem first_play_only_loads_witness :
    handlePlay initialState = .ok { initialState with audioContext := true } ∧
    (loadedOf [buf1, buf2, buf3]).isPlaying = false :=
  ⟨(first_play_only_loads demoFetch demoUrls [buf1, buf2, buf3] rfl (by decide)).1,
   (first_play_only_loads demoFetch demoUrls [buf1, buf2, buf3] rfl (by decide)).2.2.1⟩
